import Mathlib

/-!
Verification development for the e-mu-soundbanks EBL decoder
(`internal/ebl/parser.go`) and WAV encoder (`internal/wav/encoder.go`,
`internal/wav/types.go`).  The byte stream is modelled as a `List Nat`
(one entry per byte); Go `int`/`int64` arithmetic is modelled by `Int`,
and Go `uint32` values by `Nat` as produced by the 4-byte decoders below.
-/

deriving instance DecidableEq for Except

namespace EMu

/-- Models Go `file.Read(make([]byte, n))` on a regular file: the fresh
buffer is zero initialised, the read fills `min n s.length` bytes and
only reports an error when `n > 0` and the stream is already empty
(`io.EOF`); a short read on a non-empty stream is not an error. -/
def readBuf (n : Nat) (s : List Nat) : Option (List Nat × List Nat) :=
  if n ≠ 0 ∧ s.isEmpty then none
  else some (s.take n ++ List.replicate (n - s.length) 0, s.drop n)

/-- Models `binary.Read` / `io.ReadFull` of exactly `n` bytes: fails
unless the stream holds at least `n` bytes. -/
def readFull (n : Nat) (s : List Nat) : Option (List Nat × List Nat) :=
  if s.length < n then none else some (s.take n, s.drop n)

/-- Big-endian 32-bit decoder (`binary.BigEndian.Uint32`). -/
def u32be : List Nat → Nat
  | [b0, b1, b2, b3] => ((b0 * 256 + b1) * 256 + b2) * 256 + b3
  | _ => 0

/-- Little-endian 32-bit decoder (`binary.LittleEndian.Uint32`). -/
def u32le : List Nat → Nat
  | [b0, b1, b2, b3] => ((b3 * 256 + b2) * 256 + b1) * 256 + b0
  | _ => 0

/-- ASCII bytes of the outer magic `"FORM"`. -/
def formMagic : List Nat := [70, 79, 82, 77]

/-- ASCII bytes of the table-of-contents magic `"E5B0TOC2"`. -/
def tocMagic : List Nat := [69, 53, 66, 48, 84, 79, 67, 50]

/-- ASCII bytes of the chunk magic `"E5S1"`. -/
def e5s1Magic : List Nat := [69, 53, 83, 49]

/-- Typed failure cases of `ReadFile`, one constructor per `return nil, err`
site of the Go source. -/
inductive ErrKind where
  | readMagic1
  | shortFileSize
  | invalidForm
  | readMagic2
  | invalidTOC
  | shortNextHeader
  | readMagic3
  | invalidHeader3
  | shortDataSize
  | shortDataOff
  | readZeros
  | readFilename1
  | readPaddingErr
  | shortSize4a
  | readMagic4
  | invalidHeader4
  | shortSize4
  | readData4
  | readFilename2
  | shortMeta : Nat → ErrKind
  | readComment
  | readDataPadding
  | shortChannel1
  | shortChannel2
deriving DecidableEq

/-- Model of the Go `EBLFile` structure (`internal/ebl/types.go`), with the
header sub-records flattened into named fields.  `size` is the stat file
size, `read` the running byte counter maintained by `ReadFile`. -/
structure EBLFile where
  size : Int := 0
  read : Int := 0
  header1FileSize : Nat := 0
  header2NextBytes : Nat := 0
  header3DataSize : Nat := 0
  header3Data : Nat := 0
  header3Zeros : List Nat := []
  header3Filename : List Nat := []
  header3Read : Int := 0
  padding : Int := 0
  header4Size : Nat := 0
  header4Data : List Nat := []
  header4Read : Int := 0
  filename2 : List Nat := []
  v1 : Nat := 0
  v2 : Nat := 0
  v3 : Nat := 0
  v4 : Nat := 0
  v5 : Nat := 0
  v6 : Nat := 0
  v7 : Nat := 0
  v8 : Nat := 0
  v9 : Nat := 0
  sampleRate : Nat := 0
  v11 : Nat := 0
  v12 : Nat := 0
  comment : List Nat := []
  channel1Size : Int := 0
  channel2Size : Int := 0
  dataSizeCalc : Int := 0
  headerRead : Int := 0
  dataSizeEst : Int := 0
  channel1Data : List Nat := []
  channel2Data : List Nat := []
deriving DecidableEq

/-- Outcome of a decode: a typed error, a decoded file, or a Go runtime
panic (reached by `make([]byte, n)` with negative `n`). -/
inductive DecodeResult where
  | ok : EBLFile → DecodeResult
  | err : ErrKind → DecodeResult
  | panicked : DecodeResult
deriving DecidableEq

/-- Header 1 stage (parser.go lines 84-115): 4-byte `"FORM"` magic checked
after an unconditional read, then a big-endian 32-bit file size.  Returns
the declared size and the unread remainder. -/
def parseHeader1 (s : List Nat) : Except ErrKind (Nat × List Nat) :=
  match readBuf 4 s with
  | none => .error .readMagic1
  | some (p, s1) =>
    if p ≠ formMagic then .error .invalidForm
    else
      match readFull 4 s1 with
      | none => .error .shortFileSize
      | some (b, s2) => .ok (u32be b, s2)

/-- Header 2 stage (lines 117-148): 8-byte `"E5B0TOC2"` magic then a
big-endian 32-bit next-header size. -/
def parseHeader2 (s : List Nat) : Except ErrKind (Nat × List Nat) :=
  match readBuf 8 s with
  | none => .error .readMagic2
  | some (p, s1) =>
    if p ≠ tocMagic then .error .invalidTOC
    else
      match readFull 4 s1 with
      | none => .error .shortNextHeader
      | some (b, s2) => .ok (u32be b, s2)

/-- Fields of the third header recorded by the parser; `readField` is the
value the Go code stores in `Header3.Read` (line 198). -/
structure Header3Info where
  dataSize : Nat
  dataOff : Nat
  zeros : List Nat
  filenameBytes : List Nat
  readField : Int
deriving DecidableEq

/-- Header 3 stage (lines 150-204): 4-byte `"E5S1"` magic, big-endian
32-bit `dataSize` and `data` offset, 2 reserved bytes, 64-byte filename
field.  The stage consumes 78 stream bytes on success while the Go code
records `Read: 74`. -/
def parseHeader3 (s : List Nat) : Except ErrKind (Header3Info × List Nat) :=
  match readBuf 4 s with
  | none => .error .readMagic3
  | some (p, s1) =>
    if p ≠ e5s1Magic then .error .invalidHeader3
    else
      match readFull 4 s1 with
      | none => .error .shortDataSize
      | some (ds, s2) =>
        match readFull 4 s2 with
        | none => .error .shortDataOff
        | some (d, s3) =>
          match readBuf 2 s3 with
          | none => .error .readZeros
          | some (z, s4) =>
            match readBuf 64 s4 with
            | none => .error .readFilename1
            | some (fn, s5) =>
              .ok ({ dataSize := u32be ds, dataOff := u32be d, zeros := z,
                     filenameBytes := fn, readField := 74 }, s5)

/-- Fields of the fourth header stage: the `Padding` value recorded on the
file, the header's size word, its 6 opaque bytes, and the number of bytes
the Go code credits to `Read` for this header (14, 10, or 6). -/
structure Header4Info where
  padding : Int
  size : Nat
  data4 : List Nat
  readBytes : Int
deriving DecidableEq

/-- Normal header 4 flow (lines 284-326): `"E5S1"` magic, big-endian
32-bit size, 6 opaque bytes. -/
def parseHeader4Tail (padding : Int) (s : List Nat) :
    Except ErrKind (Header4Info × List Nat) :=
  match readBuf 4 s with
  | none => .error .readMagic4
  | some (p, s1) =>
    if p ≠ e5s1Magic then .error .invalidHeader4
    else
      match readFull 4 s1 with
      | none => .error .shortSize4
      | some (szb, s2) =>
        match readBuf 6 s2 with
        | none => .error .readData4
        | some (d4, s3) =>
          .ok ({ padding := padding, size := u32be szb, data4 := d4,
                 readBytes := 14 }, s3)

/-- Padding and header 4 stage (lines 206-348).  `header3Padding` is the
gap between `Header3.Data` and the running `read` counter; when positive
it is read and discarded, `read` is credited with the full intended
amount, and the first 4 (and 8) buffer bytes are inspected for an
overlapping `"E5S1"` header whose magic (and possibly size) were already
consumed as padding. -/
def parseHeader4 (dataOff : Nat) (read : Int) (s : List Nat) :
    Except ErrKind (Header4Info × List Nat) :=
  let header3Padding : Int := (dataOff : Int) - read
  if header3Padding > 0 then
    match readBuf header3Padding.toNat s with
    | none => .error .readPaddingErr
    | some (padBuf, s1) =>
      let bytesRead := min header3Padding.toNat s.length
      if 4 ≤ bytesRead ∧ padBuf.take 4 = e5s1Magic then
        if 8 ≤ bytesRead then
          match readBuf 6 s1 with
          | none => .error .readData4
          | some (d4, s2) =>
            .ok ({ padding := header3Padding,
                   size := u32be ((padBuf.drop 4).take 4), data4 := d4,
                   readBytes := 6 }, s2)
        else
          match readFull 4 s1 with
          | none => .error .shortSize4a
          | some (szb, s2) =>
            match readBuf 6 s2 with
            | none => .error .readData4
            | some (d4, s3) =>
              .ok ({ padding := header3Padding, size := u32be szb,
                     data4 := d4, readBytes := 10 }, s3)
      else
        parseHeader4Tail header3Padding s1
  else
    parseHeader4Tail 0 s

/-- Values of the fixed 176-byte metadata block (lines 350-436). -/
structure HData where
  filename2 : List Nat
  v1 : Nat
  v2 : Nat
  v3 : Nat
  v4 : Nat
  v5 : Nat
  v6 : Nat
  v7 : Nat
  v8 : Nat
  v9 : Nat
  sampleRate : Nat
  v11 : Nat
  v12 : Nat
  comment : List Nat
deriving DecidableEq

/-- Little-endian 32-bit field read used twelve times in the metadata
block. -/
def readU32le (s : List Nat) : Option (Nat × List Nat) :=
  match readFull 4 s with
  | none => none
  | some (b, r) => some (u32le b, r)

/-- Metadata block stage (lines 350-436): 64-byte second filename, twelve
little-endian 32-bit words (the tenth being the sample rate), 64-byte
comment. -/
def parseHeaderData (s : List Nat) : Except ErrKind (HData × List Nat) :=
  match readBuf 64 s with
  | none => .error .readFilename2
  | some (fn2, s1) =>
    match readU32le s1 with
    | none => .error (.shortMeta 1)
    | some (w1, t1) =>
      match readU32le t1 with
      | none => .error (.shortMeta 2)
      | some (w2, t2) =>
        match readU32le t2 with
        | none => .error (.shortMeta 3)
        | some (w3, t3) =>
          match readU32le t3 with
          | none => .error (.shortMeta 4)
          | some (w4, t4) =>
            match readU32le t4 with
            | none => .error (.shortMeta 5)
            | some (w5, t5) =>
              match readU32le t5 with
              | none => .error (.shortMeta 6)
              | some (w6, t6) =>
                match readU32le t6 with
                | none => .error (.shortMeta 7)
                | some (w7, t7) =>
                  match readU32le t7 with
                  | none => .error (.shortMeta 8)
                  | some (w8, t8) =>
                    match readU32le t8 with
                    | none => .error (.shortMeta 9)
                    | some (w9, t9) =>
                      match readU32le t9 with
                      | none => .error (.shortMeta 10)
                      | some (wRate, t10) =>
                        match readU32le t10 with
                        | none => .error (.shortMeta 11)
                        | some (w11, t11) =>
                          match readU32le t11 with
                          | none => .error (.shortMeta 12)
                          | some (w12, t12) =>
                            match readBuf 64 t12 with
                            | none => .error .readComment
                            | some (cm, t13) =>
                              .ok ({ filename2 := fn2, v1 := w1, v2 := w2,
                                     v3 := w3, v4 := w4, v5 := w5, v6 := w6,
                                     v7 := w7, v8 := w8, v9 := w9,
                                     sampleRate := wRate, v11 := w11,
                                     v12 := w12, comment := cm }, t13)

/-- Headers 1-4 plus the metadata block, assembling the `EBLFile` record
exactly as `ReadFile` does up to line 436; the channel fields keep their
zero defaults until `decodeAudio` fills them. -/
def parseThroughMetadata (s : List Nat) :
    Except ErrKind (EBLFile × List Nat) :=
  match parseHeader1 s with
  | .error e => .error e
  | .ok (h1sz, s1) =>
    match parseHeader2 s1 with
    | .error e => .error e
    | .ok (nhb, s2) =>
      match parseHeader3 s2 with
      | .error e => .error e
      | .ok (h3, s3) =>
        match parseHeader4 h3.dataOff (8 + 12 + h3.readField) s3 with
        | .error e => .error e
        | .ok (h4, s4) =>
          match parseHeaderData s4 with
          | .error e => .error e
          | .ok (hd, s5) =>
            .ok ({ size := (s.length : Int),
                   read := 8 + 12 + h3.readField + h4.padding
                           + h4.readBytes + 176,
                   header1FileSize := h1sz,
                   header2NextBytes := nhb,
                   header3DataSize := h3.dataSize,
                   header3Data := h3.dataOff,
                   header3Zeros := h3.zeros,
                   header3Filename := h3.filenameBytes,
                   header3Read := h3.readField,
                   padding := h4.padding,
                   header4Size := h4.size,
                   header4Data := h4.data4,
                   header4Read := h4.readBytes,
                   filename2 := hd.filename2,
                   v1 := hd.v1, v2 := hd.v2, v3 := hd.v3, v4 := hd.v4,
                   v5 := hd.v5, v6 := hd.v6, v7 := hd.v7, v8 := hd.v8,
                   v9 := hd.v9, sampleRate := hd.sampleRate,
                   v11 := hd.v11, v12 := hd.v12,
                   comment := hd.comment }, s5)

/-- Channel-extent derivation (lines 438-459): `channel1 = v3 - v2`,
`channel2 = v5 - v4`; when both are equal and zero the file is mono and
channel 1 is recomputed as `v4 - v3 + 2` with channel 2 set to 0.
Unequal sizes (logged when both are non-zero) are kept unchanged. -/
def channelSizes (v2 v3 v4 v5 : Nat) : Int × Int :=
  let c1 : Int := (v3 : Int) - (v2 : Int)
  let c2 : Int := (v5 : Int) - (v4 : Int)
  if c1 = c2 ∧ c1 = 0 then ((v4 : Int) - (v3 : Int) + 2, 0) else (c1, c2)

/-- Log category attached to the trailer-reconciliation outcome:
nothing, the 40-byte extra-header warning, or the generic
size-inconsistency warning. -/
inductive TrailerNote where
  | silent
  | warn40
  | warnInconsistent
deriving DecidableEq

/-- Trailer reconciliation (lines 507-535).  When `read` and `size`
disagree by exactly 4 the code tries to read a 4-byte trailer and, if all
4 bytes arrive, credits them to `read` and finishes silently; a
difference of 40 only logs the extra-header warning; any other non-zero
difference logs the size-inconsistency warning.  No branch fails. -/
def trailerStep (size read : Int) (rest : List Nat) :
    Int × List Nat × TrailerNote :=
  if read = size then (read, rest, .silent)
  else
    let difference := size - read
    if difference = 4 then
      if 4 ≤ rest.length then (read + 4, rest.drop 4, .silent)
      else (read, rest.drop 4, .silent)
    else if difference = 40 then (read, rest, .warn40)
    else (read, rest, .warnInconsistent)

/-- Final step after the audio payload: run the trailer reconciliation
and return the file; every path returns `ok`. -/
def finishDecode (f : EBLFile) (rest : List Nat) : DecodeResult :=
  let t := trailerStep f.size f.read rest
  .ok { f with read := t.1 }

/-- Audio stage (lines 438-535): channel-extent derivation, pre-audio
padding (`v5 - dataSizeCalc - 178` bytes when positive), the two
`make([]byte, size)` allocations (a Go panic when a size is negative),
the two exact channel reads, and the trailer reconciliation. -/
def decodeAudio (f : EBLFile) (rest : List Nat) : DecodeResult :=
  let cs := channelSizes f.v2 f.v3 f.v4 f.v5
  let c1 := cs.1
  let c2 := cs.2
  let dsc := c1 + c2
  let dataPadding : Int := (f.v5 : Int) - dsc - 178
  match (if dataPadding > 0 then readBuf dataPadding.toNat rest
         else some ([], rest)) with
  | none => .err .readDataPadding
  | some (_, r1) =>
    let read1 := if dataPadding > 0 then f.read + dataPadding else f.read
    if c1 < 0 then .panicked
    else
      match readFull c1.toNat r1 with
      | none => .err .shortChannel1
      | some (ch1, r2) =>
        if c2 < 0 then .panicked
        else
          match readFull c2.toNat r2 with
          | none => .err .shortChannel2
          | some (ch2, r3) =>
            finishDecode
              { f with channel1Size := c1, channel2Size := c2,
                       dataSizeCalc := dsc, headerRead := read1,
                       dataSizeEst := f.size - read1,
                       channel1Data := ch1, channel2Data := ch2,
                       read := read1 + c1 + c2 } r3

/-- Full decoder: model of `Parser.ReadFile` over an in-memory byte
stream. -/
def decodeEBL (s : List Nat) : DecodeResult :=
  match parseThroughMetadata s with
  | .error e => .err e
  | .ok (f, rest) => decodeAudio f rest

/-- Projection: the `Read` counter of a successful decode. -/
def DecodeResult.readOf? : DecodeResult → Option Int
  | .ok f => some f.read
  | _ => none

/-- Projection: whether the decode produced a file. -/
def DecodeResult.isOk : DecodeResult → Bool
  | .ok _ => true
  | _ => false

/-- Projection: channel 1 byte count of a successful decode. -/
def DecodeResult.ch1Len? : DecodeResult → Option Nat
  | .ok f => some f.channel1Data.length
  | _ => none

/-- Projection: channel 2 byte count of a successful decode. -/
def DecodeResult.ch2Len? : DecodeResult → Option Nat
  | .ok f => some f.channel2Data.length
  | _ => none

/-- Projection: channel 2 bytes of a successful decode. -/
def DecodeResult.ch2Data? : DecodeResult → Option (List Nat)
  | .ok f => some f.channel2Data
  | _ => none

/-- Projection: the `Read` value the header 3 stage records. -/
def parseHeader3Read? (s : List Nat) : Option Int :=
  match parseHeader3 s with
  | .ok (h, _) => some h.readField
  | .error _ => none

/-- Projection: how many stream bytes the header 3 stage consumed. -/
def parseHeader3Used? (s : List Nat) : Option Nat :=
  match parseHeader3 s with
  | .ok (_, rest) => some (s.length - rest.length)
  | .error _ => none

/-- Stereo interleave (`interleaveChannels`, encoder.go lines 148-166):
the zero-initialised output of `numSamples * 4` bytes receives, for each
sample index `i`, channel 1's bytes `i*2` and `i*2+1` unconditionally and
channel 2's bytes `i*2` and `i*2+1` only when `i*2+1 < channel2.length`,
leaving the two right-channel bytes zero otherwise. -/
def interleaveChannels (channel1 channel2 : List Nat) : List Nat :=
  let numSamples := channel1.length / 2
  (List.range numSamples).flatMap (fun i =>
    [channel1.getD (i * 2) 0, channel1.getD (i * 2 + 1) 0] ++
      (if i * 2 + 1 < channel2.length then
        [channel2.getD (i * 2) 0, channel2.getD (i * 2 + 1) 0]
      else [0, 0]))

/-- Character class of the sanitizer regex `[^0-9a-zA-Z\.,:%\-_#]`:
returns `true` exactly on the characters the regex keeps. -/
def allowedChar (c : Char) : Bool :=
  ('0' ≤ c && c ≤ '9') || ('a' ≤ c && c ≤ 'z') || ('A' ≤ c && c ≤ 'Z') ||
    c == '.' || c == ',' || c == ':' || c == '%' || c == '-' || c == '_' ||
    c == '#'

/-- Character-level model of
`regexp.MustCompile(pattern).ReplaceAllString(filename, "_")` for the
pattern `[^0-9a-zA-Z\.,:%\-_#]+` (encoder.go lines 168-173): the regex
matches each maximal non-empty run of disallowed characters, so the
replacement emits one underscore per such run.  The boolean argument
records whether the previous character belonged to a run still being
replaced. -/
def cleanRun : Bool → List Char → List Char
  | _, [] => []
  | inRun, c :: rest =>
    if allowedChar c then c :: cleanRun false rest
    else if inRun then cleanRun true rest
    else '_' :: cleanRun true rest

/-- Model of `cleanFilename` (encoder.go lines 168-173). -/
def cleanFilename (s : String) : String :=
  ⟨cleanRun false s.data⟩

/-- Restatement of the amended sanitization claim in its own words: split
the input into maximal runs by membership in the allowed set and replace
every disallowed run by a single underscore.  Defined independently of
`cleanRun` (via `dropWhile`) to compare the two. -/
def sanitizeRuns : List Char → List Char
  | [] => []
  | c :: rest =>
    if allowedChar c then c :: sanitizeRuns rest
    else '_' :: sanitizeRuns (rest.dropWhile (fun d => !allowedChar d))
termination_by l => l.length
decreasing_by
  · simp only [List.length_cons]
    exact Nat.lt_succ_self _
  · simp only [List.length_cons]
    exact Nat.lt_succ_of_le (List.Sublist.length_le (List.dropWhile_sublist _))

/-- Fields of the WAV output produced by `WriteWAV` (encoder.go lines
38-146 together with the `WAVHeader` layout from wav/types.go); the
uint32/uint16 header arithmetic keeps Go's wrapping where the source
types could wrap. -/
structure WAVOut where
  numChannels : Nat
  sampleRate : Nat
  byteRate : Nat
  blockAlign : Nat
  bitsPerSample : Nat
  audioFormat : Nat
  fileSize : Nat
  dataSize : Nat
  payload : List Nat
deriving DecidableEq

/-- Serialization core of `WriteWAV`: channel count is 1 exactly when
`Channel2Size = 0`; mono payload is channel 1 verbatim, stereo payload is
the interleave of the two channels; derived header fields follow the Go
expressions. -/
def writeWAV (f : EBLFile) : WAVOut :=
  let numChannels : Nat := if f.channel2Size = 0 then 1 else 2
  let wavData : List Nat :=
    if numChannels = 1 then f.channel1Data
    else interleaveChannels f.channel1Data f.channel2Data
  let dataSize : Nat := wavData.length % 4294967296
  { numChannels := numChannels,
    sampleRate := f.sampleRate,
    byteRate := ((f.sampleRate * numChannels % 4294967296) * 16
                  % 4294967296) / 8,
    blockAlign := (numChannels * 16 % 65536) / 8,
    bitsPerSample := 16,
    audioFormat := 1,
    fileSize := (36 + dataSize) % 4294967296,
    dataSize := dataSize,
    payload := wavData }

/-- Little-endian 4-byte encoding of a 32-bit value, for building
concrete test streams. -/
def le4 (n : Nat) : List Nat :=
  [n % 256, n / 256 % 256, n / 65536 % 256, n / 16777216 % 256]

/-- Well-formed 288-byte header prefix followed by `audio`: `"FORM"` and
a zero size word, `"E5B0TOC2"` and a zero word, header 3 with
`data = 0` (so no alignment padding), a normal header 4, the metadata
block with the given `v2..v5` and sample rate (all other words and text
fields zero), then the audio bytes. -/
def mkEBL (v2 v3 v4 v5 rate : Nat) (audio : List Nat) : List Nat :=
  formMagic ++ [0, 0, 0, 0] ++
    tocMagic ++ [0, 0, 0, 0] ++
    e5s1Magic ++ [0, 0, 0, 0] ++ [0, 0, 0, 0] ++ [0, 0] ++
    List.replicate 64 0 ++
    e5s1Magic ++ [0, 0, 0, 0] ++ List.replicate 6 0 ++
    List.replicate 64 0 ++
    le4 0 ++ le4 v2 ++ le4 v3 ++ le4 v4 ++ le4 v5 ++
    le4 0 ++ le4 0 ++ le4 0 ++ le4 0 ++ le4 rate ++ le4 0 ++ le4 0 ++
    List.replicate 64 0 ++ audio

/-- Mono example stream: `v2 = v3 = 0`, `v4 = v5 = 2`, so both channel
differences are zero and the mono rule yields `channel1 = 4`,
`channel2 = 0`; four audio bytes follow. -/
def eblMonoInput : List Nat := mkEBL 0 0 2 2 44100 [1, 2, 3, 4]

/-- Stream whose derived channel 1 size is the odd number 3
(`v3 - v2 = 3`, `v5 - v4 = 0`). -/
def eblOddInput : List Nat := mkEBL 0 3 10 10 44100 [9, 9, 9]

/-- Stream with unequal non-zero channel sizes
(`v3 - v2 = 2`, `v5 - v4 = 6`). -/
def eblUnequalInput : List Nat := mkEBL 0 2 0 6 44100 [1, 2, 3, 4, 5, 6, 7, 8]

/-- Stream whose derived channel 1 size is negative (`v3 - v2 = -10`). -/
def eblNegativeInput : List Nat := mkEBL 10 0 0 0 0 []

/-- The 78 stream bytes of a well-formed metadata-frame header (header 3)
in isolation. -/
def h3Segment : List Nat :=
  e5s1Magic ++ [0, 0, 0, 0] ++ [0, 0, 0, 0] ++ [0, 0] ++ List.replicate 64 0

/-- The `EBLFile` value `decodeEBL` produces on `eblMonoInput`. -/
def monoFileVal : EBLFile :=
  { size := 292, read := 288, header3Zeros := [0, 0],
    header3Filename := List.replicate 64 0, header3Read := 74,
    header4Data := List.replicate 6 0, header4Read := 14,
    filename2 := List.replicate 64 0, v4 := 2, v5 := 2,
    sampleRate := 44100, comment := List.replicate 64 0,
    channel1Size := 4, channel2Size := 0, dataSizeCalc := 4,
    headerRead := 284, dataSizeEst := 8,
    channel1Data := [1, 2, 3, 4], channel2Data := [] }

/-- The `EBLFile` value `parseThroughMetadata` produces on
`eblNegativeInput` (channel fields still at their defaults). -/
def negMeta : EBLFile :=
  { size := 288, read := 284, header3Zeros := [0, 0],
    header3Filename := List.replicate 64 0, header3Read := 74,
    header4Data := List.replicate 6 0, header4Read := 14,
    filename2 := List.replicate 64 0, v2 := 10,
    comment := List.replicate 64 0 }

/-- Helper: `cleanRun` in run-skipping state agrees with restarting after
dropping the rest of the disallowed run. -/
theorem cleanRun_true_eq (l : List Char) :
    cleanRun true l = cleanRun false (l.dropWhile (fun d => !allowedChar d)) := by
  induction l with
  | nil => rfl
  | cons c rest ih =>
    by_cases h : allowedChar c
    · simp [cleanRun, h, List.dropWhile_cons]
    · simpa [cleanRun, h, List.dropWhile_cons] using ih

/-- Helper: the source sanitizer equals the run-replacement restatement. -/
theorem cleanRun_eq_sanitizeRuns (l : List Char) :
    cleanRun false l = sanitizeRuns l := by
  induction l using sanitizeRuns.induct with
  | case1 => simp [cleanRun, sanitizeRuns]
  | case2 c rest h ih =>
    simp [cleanRun, h, sanitizeRuns, ih]
  | case3 c rest h ih =>
    simp [cleanRun, h, sanitizeRuns, cleanRun_true_eq, ih]

/-- Claim C1 (corrected), counterexample: on `v2=100, v3=100, v4=200,
v5=302` the claimed mono-rule output `(102, 0)` is wrong — the two
differences are `0` and `102`, not both zero, so the decoder keeps
`channel_a_size = 0`, `channel_b_size = 102`. -/
theorem channelSizes_spec_example_false :
    channelSizes 100 100 200 302 = (0, 102) ∧
      channelSizes 100 100 200 302 ≠ ((102 : Int), (0 : Int)) := by
  decide

/-- Claim C1 (amended): the mono rule fires exactly when both differences
`v3 - v2` and `v5 - v4` are zero, recomputing `channel_a_size =
v4 - v3 + 2` and `channel_b_size = 0`; the spec's example holds once
`v5` is 200 (so that `v5 - v4 = 0`), giving `(102, 0)`. -/
theorem channelSizes_mono_rule :
    channelSizes 100 100 200 200 = (102, 0) ∧
      ∀ v2 v3 v4 v5 : Nat, (v3 : Int) - (v2 : Int) = 0 →
        (v5 : Int) - (v4 : Int) = 0 →
        channelSizes v2 v3 v4 v5 = ((v4 : Int) - (v3 : Int) + 2, 0) := by
  refine ⟨by decide, ?_⟩
  intro v2 v3 v4 v5 h1 h2
  simp [channelSizes, h1, h2]

/-- Witness for the amended C1 at `v2=100, v3=100, v4=200, v5=200`. -/
theorem channelSizes_mono_rule_witness :
    channelSizes 100 100 200 200 = ((200 : Int) - (100 : Int) + 2, 0) :=
  channelSizes_mono_rule.2 100 100 200 200 (by decide) (by decide)

set_option maxRecDepth 100000 in
/-- Claim C2 (code bug): the metadata-frame header stage consumes 78
stream bytes but records `Read: 74`, so the byte counter no longer equals
the stream position; on the fully valid 292-byte mono stream the decoder
finishes with `Read = 288` despite having consumed all 292 bytes. -/
theorem read_counter_off_by_four :
    parseHeader3Used? h3Segment = some 78 ∧
      parseHeader3Read? h3Segment = some 74 ∧
      eblMonoInput.length = 292 ∧
      (decodeEBL eblMonoInput).readOf? = some 288 := by
  refine ⟨by decide, by decide, by decide, by decide⟩

/-- Claim C3 (confirmed): trailer reconciliation after the payload — a
4-byte remainder is consumed silently when present, a 40-byte remainder
only logs the extra-header warning, any other non-zero remainder only
logs the size-inconsistency warning, and the post-payload step returns
`ok` on every stream. -/
theorem trailer_reconciliation :
    ∀ (size read : Int) (rest : List Nat),
      (size - read = 4 → 4 ≤ rest.length →
        trailerStep size read rest = (read + 4, rest.drop 4, .silent)) ∧
      (size - read = 40 → trailerStep size read rest = (read, rest, .warn40)) ∧
      (size - read ≠ 0 → size - read ≠ 4 → size - read ≠ 40 →
        trailerStep size read rest = (read, rest, .warnInconsistent)) ∧
      (∀ f : EBLFile, (finishDecode f rest).isOk = true) := by
  intro size read rest
  refine ⟨?_, ?_, ?_, fun f => rfl⟩
  · intro h4 hlen
    have hne : ¬ read = size := by omega
    simp [trailerStep, hne, h4, hlen]
  · intro h40
    have hne : ¬ read = size := by omega
    have hne4 : ¬ size - read = 4 := by omega
    simp [trailerStep, hne, hne4, h40]
  · intro h0 h4 h40
    have hne : ¬ read = size := by omega
    simp [trailerStep, hne, h4, h40]

/-- Witness for C3: a difference of exactly 4 with the 4 bytes available
consumes them silently. -/
theorem trailer_reconciliation_witness :
    trailerStep 292 288 [7, 7, 7, 7] = (288 + 4, ([7, 7, 7, 7] : List Nat).drop 4, .silent) :=
  (trailer_reconciliation 292 288 [7, 7, 7, 7]).1 (by decide) (by decide)

/-- Claim C5 (corrected), counterexample: the regex replaces each maximal
run of disallowed characters with a single underscore and keeps the
`.ebl` suffix, so `"Pad/1:Warm*.ebl"` sanitizes to `"Pad_1:Warm_.ebl"`,
not `"Pad_1:Warm_"`; a space is not in the allowed class (`"a b"` becomes
`"a_b"`), and adjacent disallowed characters collapse (`"a**b"` becomes
`"a_b"`, not `"a__b"`). -/
theorem cleanFilename_spec_example_false :
    cleanFilename "Pad/1:Warm*.ebl" = "Pad_1:Warm_.ebl" ∧
      cleanFilename "Pad/1:Warm*.ebl" ≠ "Pad_1:Warm_" ∧
      cleanFilename "a b" = "a_b" ∧
      cleanFilename "a**b" = "a_b" := by
  refine ⟨by decide, by decide, by decide, by decide⟩

/-- Claim C5 (amended): `cleanFilename` replaces every maximal run of
characters outside `[0-9a-zA-Z.,:%\-_#]` (space excluded) with one
underscore, and `"Pad/1:Warm*.ebl"` sanitizes to `"Pad_1:Warm_.ebl"`. -/
theorem cleanFilename_runs :
    (∀ s : String, cleanFilename s = ⟨sanitizeRuns s.data⟩) ∧
      cleanFilename "Pad/1:Warm*.ebl" = "Pad_1:Warm_.ebl" := by
  refine ⟨fun s => congrArg String.mk (cleanRun_eq_sanitizeRuns s.data), by decide⟩

/-- Claim C8 (confirmed): any stream of at least 4 bytes whose first 4
bytes differ from `"FORM"` is rejected with the invalid-magic error and
no `EBLFile` is produced. -/
theorem invalid_form_magic (s : List Nat) (hlen : 4 ≤ s.length)
    (hne : s.take 4 ≠ formMagic) :
    decodeEBL s = .err .invalidForm := by
  have hs : s.isEmpty = false := by
    cases s with
    | nil => simp at hlen
    | cons a t => rfl
  have h0 : 4 - s.length = 0 := by omega
  unfold decodeEBL parseThroughMetadata parseHeader1 readBuf
  simp [hs, h0, hne]

/-- Witness for C8 at the all-zero 4-byte stream. -/
theorem invalid_form_magic_witness :
    decodeEBL [0, 0, 0, 0] = .err .invalidForm :=
  invalid_form_magic [0, 0, 0, 0] (by decide) (by decide)

/-- Helper: a `flatMap` over `range n` with 4-byte blocks has length
`n * 4`. -/
theorem length_flatMap_range4 (f : Nat → List Nat)
    (hf : ∀ i, (f i).length = 4) (n : Nat) :
    ((List.range n).flatMap f).length = n * 4 := by
  induction n with
  | zero => rfl
  | succ n ih =>
    rw [List.range_succ, List.flatMap_append, List.length_append, ih]
    simp [hf, Nat.succ_mul]

/-- Helper: block `i` of a `flatMap` over `range n` with 4-byte blocks. -/
theorem flatMap_range4_block (f : Nat → List Nat)
    (hf : ∀ i, (f i).length = 4) (n i : Nat) (h : i < n) :
    (((List.range n).flatMap f).drop (4 * i)).take 4 = f i := by
  induction n with
  | zero => omega
  | succ n ih =>
    rw [List.range_succ, List.flatMap_append]
    have hlen : ((List.range n).flatMap f).length = n * 4 :=
      length_flatMap_range4 f hf n
    rcases Nat.lt_or_ge i n with hi | hi
    · rw [List.drop_append_of_le_length (by omega),
        List.take_append_of_le_length (by simp [hlen]; omega)]
      exact ih hi
    · have hieq : i = n := by omega
      subst hieq
      have h4i : 4 * i = ((List.range i).flatMap f).length := by omega
      have hsingle : ([i] : List Nat).flatMap f = f i := by simp
      rw [h4i, List.drop_left, hsingle,
        List.take_of_length_le (by simp [hf i] : (f i).length ≤ 4)]

/-- Helper: pointwise-equal block functions give equal `flatMap`s over a
range. -/
theorem flatMap_range_congr (f g : Nat → List Nat) (n : Nat)
    (h : ∀ i, i < n → f i = g i) :
    (List.range n).flatMap f = (List.range n).flatMap g := by
  induction n with
  | zero => rfl
  | succ n ih =>
    rw [List.range_succ, List.flatMap_append, List.flatMap_append,
      ih (fun i hi => h i (by omega))]
    simp [h n (by omega)]

/-- Helper: two consecutive entries of a list as a slice. -/
theorem drop_take_pair (a : List Nat) (k : Nat) (h : k + 1 < a.length) :
    (a.drop k).take 2 = [a.getD k 0, a.getD (k + 1) 0] := by
  induction a generalizing k with
  | nil => simp at h
  | cons x t ih =>
    cases k with
    | zero =>
      cases t with
      | nil => simp at h
      | cons y u => simp
    | succ k =>
      simp only [List.drop_succ_cons, List.getD_cons_succ]
      exact ih k (by simpa using h)

/-- Helper: `getD` within the taken region is unchanged. -/
theorem getD_take_of_lt (l : List Nat) (m j : Nat) (h : j < m) :
    (l.take m).getD j 0 = l.getD j 0 := by
  rw [List.getD_eq_getElem?_getD, List.getD_eq_getElem?_getD,
    List.getElem?_take_of_lt h]

/-- Claim C4 (confirmed): for channel buffers `a` and non-empty `b` the
interleave emits, per sample `i < a.length / 2`, channel A's 2-byte
sample `i` then channel B's 2-byte sample `i` (two zero bytes when `b`
has no complete sample at `i`); the output length is exactly
`(a.length / 2) * 4`, and on two 2-sample channels the payload is
`[L0, R0, L1, R1]` byte for byte. -/
theorem interleave_sample_layout (a b : List Nat) (hb : b ≠ []) :
    (interleaveChannels a b).length = (a.length / 2) * 4 ∧
      (∀ i, i < a.length / 2 →
        ((interleaveChannels a b).drop (4 * i)).take 4 =
          (a.drop (i * 2)).take 2 ++
            (if i * 2 + 1 < b.length then (b.drop (i * 2)).take 2
             else [0, 0])) ∧
      (∀ x0 x1 x2 x3 y0 y1 y2 y3 : Nat,
        interleaveChannels [x0, x1, x2, x3] [y0, y1, y2, y3] =
          [x0, x1, y0, y1, x2, x3, y2, y3]) := by
  have hf : ∀ i, ([a.getD (i * 2) 0, a.getD (i * 2 + 1) 0] ++
      (if i * 2 + 1 < b.length then
        [b.getD (i * 2) 0, b.getD (i * 2 + 1) 0]
      else [0, 0])).length = 4 := by
    intro i
    by_cases h : i * 2 + 1 < b.length <;> simp [h]
  refine ⟨length_flatMap_range4 _ hf _, ?_,
    by intros; simp [interleaveChannels, List.range_succ]⟩
  intro i hi
  have hA : i * 2 + 1 < a.length := by omega
  rw [interleaveChannels, flatMap_range4_block _ hf _ i hi,
    drop_take_pair a (i * 2) hA]
  by_cases h : i * 2 + 1 < b.length
  · rw [if_pos h, if_pos h, drop_take_pair b (i * 2) h]
  · rw [if_neg h, if_neg h]

/-- Witness for C4 on `a = [1,2,3,4]`, `b = [5,6]` (second sample of `b`
missing, zeros substituted). -/
theorem interleave_sample_layout_witness :
    (interleaveChannels [1, 2, 3, 4] [5, 6]).length =
        (([1, 2, 3, 4] : List Nat).length / 2) * 4 ∧
      ((interleaveChannels [1, 2, 3, 4] [5, 6]).drop (4 * 1)).take 4 =
        (([1, 2, 3, 4] : List Nat).drop (1 * 2)).take 2 ++
          (if 1 * 2 + 1 < ([5, 6] : List Nat).length
           then (([5, 6] : List Nat).drop (1 * 2)).take 2 else [0, 0]) :=
  ⟨(interleave_sample_layout [1, 2, 3, 4] [5, 6] (by decide)).1,
   (interleave_sample_layout [1, 2, 3, 4] [5, 6] (by decide)).2.1 1 (by decide)⟩

/-- Claim C10 (confirmed): `interleaveChannels` is total on all byte
buffers — the output length is `(a.length / 2) * 4` whatever `b` is, the
final odd byte of `a` and all bytes of `b` at index `2 * (a.length / 2)`
or beyond are ignored, and every unguarded channel 1 access `i*2+1` is
in bounds. -/
theorem interleave_total (a b : List Nat) :
    (interleaveChannels a b).length = (a.length / 2) * 4 ∧
      interleaveChannels a b =
        interleaveChannels (a.take (2 * (a.length / 2))) b ∧
      interleaveChannels a b =
        interleaveChannels a (b.take (2 * (a.length / 2))) ∧
      (∀ i, i < a.length / 2 → i * 2 + 1 < a.length) := by
  have hf : ∀ (x y : List Nat) (i : Nat),
      ([x.getD (i * 2) 0, x.getD (i * 2 + 1) 0] ++
        (if i * 2 + 1 < y.length then
          [y.getD (i * 2) 0, y.getD (i * 2 + 1) 0]
        else [0, 0])).length = 4 := by
    intro x y i
    by_cases h : i * 2 + 1 < y.length <;> simp [h]
  have hm : 2 * (a.length / 2) ≤ a.length := by omega
  have hlen : (a.take (2 * (a.length / 2))).length = 2 * (a.length / 2) := by
    simp [Nat.min_eq_left hm]
  refine ⟨length_flatMap_range4 _ (hf a b) _, ?_, ?_, by intro i hi; omega⟩
  · rw [interleaveChannels, interleaveChannels, hlen,
      Nat.mul_div_cancel_left _ (by norm_num : 0 < 2)]
    refine flatMap_range_congr _ _ _ ?_
    intro i hi
    rw [getD_take_of_lt a _ (i * 2) (by omega),
      getD_take_of_lt a _ (i * 2 + 1) (by omega)]
  · rw [interleaveChannels, interleaveChannels]
    refine flatMap_range_congr _ _ _ ?_
    intro i hi
    have hcond : (i * 2 + 1 < (b.take (2 * (a.length / 2))).length) ↔
        (i * 2 + 1 < b.length) := by
      simp only [List.length_take]
      omega
    by_cases h : i * 2 + 1 < b.length
    · rw [if_pos h, if_pos (hcond.2 h),
        getD_take_of_lt b _ (i * 2) (by omega),
        getD_take_of_lt b _ (i * 2 + 1) (by omega)]
    · rw [if_neg h, if_neg (fun hc => h (hcond.1 hc))]

/-- Witness for C10 on `a = [1,2,3]` (odd length), `b = [5,6,7,8,9]`
(longer than needed). -/
theorem interleave_total_witness :
    interleaveChannels [1, 2, 3] [5, 6, 7, 8, 9] =
        interleaveChannels (([1, 2, 3] : List Nat).take
          (2 * (([1, 2, 3] : List Nat).length / 2))) [5, 6, 7, 8, 9] ∧
      0 * 2 + 1 < ([1, 2, 3] : List Nat).length :=
  ⟨(interleave_total [1, 2, 3] [5, 6, 7, 8, 9]).2.1,
   (interleave_total [1, 2, 3] [5, 6, 7, 8, 9]).2.2.2 0 (by decide)⟩

/-- Helper: a successful audio stage stores a non-negative channel 2 size
and exactly that many channel 2 bytes. -/
theorem decodeAudio_ok_channel2 (f : EBLFile) (rest : List Nat)
    (g : EBLFile) (h : decodeAudio f rest = .ok g) :
    0 ≤ g.channel2Size ∧ g.channel2Data.length = g.channel2Size.toNat := by
  simp only [decodeAudio] at h
  split at h
  · simp at h
  · split at h
    · simp at h
    · rename_i hc1
      split at h
      · simp at h
      · rename_i ch1 r2 hr1
        split at h
        · simp at h
        · rename_i hc2
          split at h
          · simp at h
          · rename_i ch2 r3 hr2
            unfold finishDecode at h
            simp only [DecodeResult.ok.injEq] at h
            subst h
            unfold readFull at hr2
            split at hr2
            · simp at hr2
            · rename_i hlen
              simp only [Option.some.injEq, Prod.mk.injEq] at hr2
              obtain ⟨hch2, -⟩ := hr2
              subst hch2
              simp only [List.length_take]
              constructor
              · omega
              · simp only [Nat.min_def]
                split <;> omega

set_option maxRecDepth 100000 in
/-- Claim C6 (corrected), counterexample: a successful decode can have an
odd channel 1 byte count — `eblOddInput` (with `v3 - v2 = 3`) decodes
successfully with `Channel1Data` of length 3, which 2 does not divide. -/
theorem odd_channel_length_decodes :
    (decodeEBL eblOddInput).isOk = true ∧
      (decodeEBL eblOddInput).ch1Len? = some 3 ∧ ¬ 2 ∣ 3 := by
  refine ⟨by decide, by decide, by decide⟩

set_option maxRecDepth 100000 in
/-- Claim C6 (amended): the decoder derives `Channel1Data`'s length from
the metadata word differences with no evenness guarantee; unequal
channel sizes are never corrected (the derivation returns them
unchanged), and a stream with unequal non-zero channel sizes (2 and 6)
still decodes successfully. -/
theorem unequal_channels_not_corrected :
    (∀ v2 v3 v4 v5 : Nat,
        (v3 : Int) - (v2 : Int) ≠ (v5 : Int) - (v4 : Int) →
        channelSizes v2 v3 v4 v5 =
          ((v3 : Int) - (v2 : Int), (v5 : Int) - (v4 : Int))) ∧
      (decodeEBL eblUnequalInput).isOk = true ∧
      (decodeEBL eblUnequalInput).ch1Len? = some 2 ∧
      (decodeEBL eblUnequalInput).ch2Len? = some 6 := by
  refine ⟨?_, by decide, by decide, by decide⟩
  intro v2 v3 v4 v5 h
  unfold channelSizes
  rw [if_neg]
  rintro ⟨h1, -⟩
  exact h h1

/-- Witness for the amended C6 at `v2=0, v3=2, v4=0, v5=6`. -/
theorem unequal_channels_not_corrected_witness :
    channelSizes 0 2 0 6 = ((2 : Int) - (0 : Int), (6 : Int) - (0 : Int)) :=
  unequal_channels_not_corrected.1 0 2 0 6 (by decide)

/-- Claim C7 (confirmed): a successfully decoded sample with empty
channel B encodes with channel count 1, the decoded sample rate, and
channel A's bytes verbatim as the payload. -/
theorem mono_roundtrip (s : List Nat) (f : EBLFile)
    (hdec : decodeEBL s = .ok f) (hempty : f.channel2Data = []) :
    (writeWAV f).numChannels = 1 ∧
      (writeWAV f).sampleRate = f.sampleRate ∧
      (writeWAV f).payload = f.channel1Data := by
  have hch : 0 ≤ f.channel2Size ∧
      f.channel2Data.length = f.channel2Size.toNat := by
    unfold decodeEBL at hdec
    split at hdec
    · simp at hdec
    · exact decodeAudio_ok_channel2 _ _ _ hdec
  have hz : f.channel2Size = 0 := by
    rw [hempty] at hch
    simp only [List.length_nil] at hch
    omega
  simp [writeWAV, hz]

set_option maxRecDepth 100000 in
/-- Witness for C7 on the 292-byte mono stream. -/
theorem mono_roundtrip_witness :
    (writeWAV monoFileVal).numChannels = 1 ∧
      (writeWAV monoFileVal).sampleRate = monoFileVal.sampleRate ∧
      (writeWAV monoFileVal).payload = monoFileVal.channel1Data :=
  mono_roundtrip eblMonoInput monoFileVal (by decide) (by decide)

/-- Claim C9 (confirmed): when the parsed metadata words give a negative
derived channel size the decoder reaches `make([]byte, n)` with negative
`n` and panics instead of returning a typed error — either channel 1's
size is negative, or channel 1's size is satisfiable and channel 2's is
negative (stated for streams where the pre-audio padding branch does not
intervene). -/
theorem negative_channel_size_panics (s : List Nat) (f : EBLFile)
    (rest : List Nat)
    (hmeta : parseThroughMetadata s = .ok (f, rest))
    (hdp : (f.v5 : Int) - ((channelSizes f.v2 f.v3 f.v4 f.v5).1 +
        (channelSizes f.v2 f.v3 f.v4 f.v5).2) - 178 ≤ 0)
    (hneg : (channelSizes f.v2 f.v3 f.v4 f.v5).1 < 0 ∨
      (0 ≤ (channelSizes f.v2 f.v3 f.v4 f.v5).1 ∧
        (channelSizes f.v2 f.v3 f.v4 f.v5).2 < 0 ∧
        (channelSizes f.v2 f.v3 f.v4 f.v5).1.toNat ≤ rest.length)) :
    decodeEBL s = .panicked := by
  unfold decodeEBL
  rw [hmeta]
  show decodeAudio f rest = .panicked
  simp only [decodeAudio]
  rw [if_neg (by omega :
    ¬ (f.v5 : Int) - ((channelSizes f.v2 f.v3 f.v4 f.v5).1 +
      (channelSizes f.v2 f.v3 f.v4 f.v5).2) - 178 > 0)]
  rcases hneg with hneg | ⟨hpos, hneg2, hlen⟩
  · simp only [if_pos hneg]
  · have hc1 : ¬ (channelSizes f.v2 f.v3 f.v4 f.v5).1 < 0 := by omega
    have hfull : readFull (channelSizes f.v2 f.v3 f.v4 f.v5).1.toNat rest =
        some (rest.take (channelSizes f.v2 f.v3 f.v4 f.v5).1.toNat,
          rest.drop (channelSizes f.v2 f.v3 f.v4 f.v5).1.toNat) := by
      unfold readFull
      rw [if_neg (by omega)]
    simp only [hc1, hfull, hneg2, if_true, if_false, ite_true, ite_false,
      eq_self_iff_true, not_false_iff]

set_option maxRecDepth 100000 in
/-- Witness for C9 on a well-formed 288-byte stream whose metadata gives
`v3 - v2 = -10`. -/
theorem negative_channel_size_panics_witness :
    decodeEBL eblNegativeInput = .panicked :=
  negative_channel_size_panics eblNegativeInput negMeta []
    (by decide) (by decide) (Or.inl (by decide))

end EMu
